import Mathlib

/-!
Verification of the asynclog-go logging package (src/asynclog.go).

Shallow embedding: the package-level mutable variables (buffer, workers,
isStarted, output, here, the messages channel and the debugCache) become the
fields of a LoggerState record, every exported function becomes a Lean
function on that record, and the runtime call stack that runtime.Caller
inspects becomes an explicit list of frames threaded through the debug
functions.  Standard-library calls (strconv, filepath.Split, runtime.Caller,
channel make/close) are modelled by their documented behaviour.  Channel
sends become list appends; a nil or closed channel operation that would
panic is modelled by Option (none = panic).
-/

namespace AsyncLog

/-- Model of a finite float64 value as an exact dyadic rational:
the value is mant * 2 ^ exp.  Every finite IEEE-754 double is of this form. -/
structure GoFloat where
  mant : Int
  exp : Int
deriving DecidableEq, Repr

/-- Drops trailing zero digits of a fraction part. -/
def trimTrailingZeros (l : List Char) : List Char :=
  (l.reverse.dropWhile (fun c => c = '0')).reverse

/-- Pads a digit string with leading zeros up to length n. -/
def padLeft (l : List Char) (n : Nat) : List Char :=
  List.replicate (n - l.length) '0' ++ l

/-- Exact decimal expansion of n * 2 ^ e (finite, since the value is a
dyadic rational), with trailing fraction zeros removed.  Used only as the
fallback of formatFloat on values that are not finite float64 values and
so can never reach the Go program. -/
def exactDecimal (n : Nat) (e : Int) : String :=
  if 0 ≤ e then Nat.repr (n * 2 ^ e.toNat)
  else
    let k := (-e).toNat
    let ds := padLeft (Nat.repr (n * 5 ^ k)).data (k + 1)
    let ip := ds.take (ds.length - k)
    let fp := trimTrailingZeros (ds.drop (ds.length - k))
    if fp.isEmpty then String.mk ip
    else String.mk ip ++ "." ++ String.mk fp

/-- Splits n as (odd, k) with n = odd * 2 ^ k; fuel-guided structural
recursion, called with fuel = n so the fuel never runs out first. -/
def oddPartAux : Nat → Nat → Nat × Nat
  | 0, n => (n, 0)
  | fuel + 1, n =>
    if n % 2 == 0 && n != 0 then
      let r := oddPartAux fuel (n / 2)
      (r.1, r.2 + 1)
    else (n, 0)

/-- Number of binary digits of n; fuel-guided, called with fuel = n. -/
def bitLenAux : Nat → Nat → Nat
  | 0, _ => 0
  | fuel + 1, n => if n == 0 then 0 else bitLenAux fuel (n / 2) + 1

/-- Canonical IEEE-754 binary64 form of the nonzero value with magnitude
mant.natAbs * 2 ^ exp: returns (m, e) with value m * 2 ^ e where either
2 ^ 52 <= m < 2 ^ 53 and -1074 <= e <= 971 (normal) or m < 2 ^ 52 and
e = -1074 (subnormal); none when the value is not a finite float64. -/
def canonOf (mant exp : Int) : Option (Nat × Int) :=
  let n := mant.natAbs
  if n = 0 then none
  else
    let ok := oddPartAux n n
    let o := ok.1
    let a : Int := exp + ok.2
    let L := bitLenAux o o
    if 53 < L then none
    else
      let en : Int := a + L - 53
      if 971 < en then none
      else if -1074 ≤ en then some (o * 2 ^ (53 - L), en)
      else if a + 1074 < 0 then none
      else some (o * 2 ^ (a + 1074).toNat, -1074)

/-- Exact floor of log10 of m * 2 ^ e for m > 0, by decimal digit
counting: for e >= 0 the value is the integer m * 2 ^ e, and for e < 0 it
is (m * 5 ^ (-e)) * 10 ^ e with integer first factor. -/
def d10Of (m : Nat) (e : Int) : Int :=
  if 0 ≤ e then ((Nat.repr (m * 2 ^ e.toNat)).length : Int) - 1
  else ((Nat.repr (m * 5 ^ (-e).toNat)).length : Int) - 1 + e

/-- Floor, remainder and denominator of (x * 2 ^ a) / 10 ^ g, computed
with exact integer arithmetic. -/
def fdiv (x : Nat) (a g : Int) : Nat × Nat × Nat :=
  let num := x * 2 ^ (a - g).toNat * 5 ^ (-g).toNat
  let den := 2 ^ (g - a).toNat * 5 ^ g.toNat
  (num / den, num % den, den)

/-- Shortest-digits search: for prec = 1, 2, ... the grid of decimals
with prec significant digits is intersected with the rounding interval
(loX * 2 ^ loE, hiX * 2 ^ hiE) of the value vX * 2 ^ vE — the set of
decimals that parse (round-half-even) back to exactly that float64, with
the bounds themselves included iff the canonical mantissa is even.  The
first non-empty intersection gives the digit count, and the candidate
nearest the value is returned with its decimal exponent.  17 significant
digits always suffice for a float64, so fuel 18 never runs out. -/
def pickAux (vX : Nat) (vE : Int) (loX : Nat) (loE : Int) (hiX : Nat)
    (hiE : Int) (incl : Bool) (dTen : Int) : Nat → Nat → Option (Nat × Int)
  | 0, _ => none
  | fuel + 1, prec =>
    let g : Int := dTen - prec + 1
    let l := fdiv loX loE g
    let cl := if incl && l.2.1 == 0 then l.1 else l.1 + 1
    let h := fdiv hiX hiE g
    let ch := if !incl && h.2.1 == 0 then h.1 - 1 else h.1
    if cl ≤ ch then
      let v := fdiv vX vE g
      let cv := if v.2.2 ≤ 2 * v.2.1 then v.1 + 1 else v.1
      some (max cl (min cv ch), g)
    else
      pickAux vX vE loX loE hiX hiE incl dTen fuel (prec + 1)

/-- Removes trailing zero digits of c, raising the decimal exponent g
accordingly (fuel-guided; digit counts here never exceed the fuel). -/
def strip10 : Nat → Nat × Int → Nat × Int
  | 0, p => p
  | fuel + 1, p =>
    if p.1 % 10 == 0 && p.1 != 0 then strip10 fuel (p.1 / 10, p.2 + 1)
    else p

/-- Positional (no exponent) rendering of c * 10 ^ g, as the 'f' format
writes it: zero padding on the right for g >= 0, a decimal point inside
the digits or a 0. prefix with leading fraction zeros for g < 0. -/
def renderDec (c : Nat) (g : Int) : String :=
  let ds := (Nat.repr c).data
  if 0 ≤ g then String.mk ds ++ String.mk (List.replicate g.toNat '0')
  else
    let point : Int := (ds.length : Int) + g
    if 0 < point then
      String.mk (ds.take point.toNat) ++ "." ++ String.mk (ds.drop point.toNat)
    else
      "0." ++ String.mk (List.replicate (-point).toNat '0') ++ String.mk ds

/-- Model of strconv.FormatFloat(v, 'f', -1, 64): decimal, no exponent,
using the smallest number of digits necessary to represent the value
uniquely, per the strconv documentation.  The value is normalized to its
canonical binary64 form; its rounding interval reaches half an ulp each
side (a quarter ulp below at an exact power of two), with the bounds
included exactly when the canonical mantissa is even, since parsing
rounds half to even; the shortest decimal inside the interval, nearest
the value, is rendered positionally.  A GoFloat whose value is not a
finite float64 cannot occur in the Go program; for totality such values
fall back to their exact expansion. -/
def formatFloat (f : GoFloat) : String :=
  let sign := if f.mant < 0 then "-" else ""
  if f.mant = 0 then "0"
  else
    match canonOf f.mant f.exp with
    | some me =>
      let m := me.1
      let e := me.2
      let lo : Nat × Int :=
        if m == 2 ^ 52 && decide (-1074 < e) then (4 * m - 1, e - 2)
        else (2 * m - 1, e - 1)
      match pickAux m e lo.1 lo.2 (2 * m + 1) (e - 1) (m % 2 == 0)
          (d10Of m e) 18 1 with
      | some cg =>
        let s := strip10 30 cg
        sign ++ renderDec s.1 s.2
      | none => sign ++ exactDecimal f.mant.natAbs f.exp
    | none => sign ++ exactDecimal f.mant.natAbs f.exp

/-- The argument kinds dispatched by the type switch in toString
(src/asynclog.go:196): string, int, int64, float64, bool, error values
(carrying the result of their Error method), and a default case carrying
the result of fmt.Sprint. -/
inductive GoVal where
  | str : String → GoVal
  | int : Int → GoVal
  | int64 : Int → GoVal
  | float64 : GoFloat → GoVal
  | bool : Bool → GoVal
  | err : String → GoVal
  | other : String → GoVal
deriving DecidableEq, Repr

/-- Model of toString (src/asynclog.go:196-213).  strconv.Itoa and
strconv.FormatInt(v, 10) are exact decimal conversion, modelled by
Int.repr; strconv.FormatBool gives the literals true and false. -/
def toString : GoVal → String
  | .str s => s
  | .int n => Int.repr n
  | .int64 n => Int.repr n
  | .float64 f => formatFloat f
  | .bool b => if b then "true" else "false"
  | .err m => m
  | .other r => r

/-- Concatenation of a list of strings without separators, as produced by
the strings.Builder loop in PrintArgs. -/
def strJoin : List String → String
  | [] => ""
  | s :: r => s ++ strJoin r

/-- Model of a call-stack frame as reported by runtime.Caller: the program
counter identifying the call site, the full source file path, and the line
number. -/
structure Frame where
  pc : Nat
  file : String
  line : Int
deriving DecidableEq, Repr

/-- Model of the DebugInfo struct (src/asynclog.go:73-78). -/
structure DebugInfo where
  pc : Nat
  file : String
  line : Int
  str : String
deriving DecidableEq, Repr

/-- Model of the String method on DebugInfo (src/asynclog.go:80-85): the
lazily cached label.  The Go method mutates the str field on first call;
since the computed text is a pure function of file and line, we model it
as the pure result. -/
def DebugInfo.string (i : DebugInfo) : String :=
  if i.str = "" then i.file ++ ":" ++ Int.repr i.line else i.str

/-- Model of the debugCache sync.Map as an association list keyed by pc. -/
def cacheLoad : List (Nat × DebugInfo) → Nat → Option DebugInfo
  | [], _ => none
  | e :: r, p => if e.1 = p then some e.2 else cacheLoad r p

/-- Characters after the last slash, scanning left to right with an
accumulator of the current component in reverse. -/
def baseNameAux : List Char → List Char → List Char
  | [], acc => acc.reverse
  | c :: r, acc => if c = '/' then baseNameAux r [] else baseNameAux r (c :: acc)

/-- Model of filepath.Split keeping only the file component: the part of
the path after the final slash. -/
def baseName (p : String) : String := String.mk (baseNameAux p.data [])

/-- Model of the package-level mutable state of src/asynclog.go: the
configuration variables, the lifecycle flag, the messages channel
(contents, capacity and closed flag), the debugCache, and the number of
consumer goroutines launched by Start.  The output sink is an abstract
identifier. -/
structure LoggerState where
  buffer : Int
  workers : Int
  isStarted : Bool
  output : Nat
  here : String
  messages : List String
  queueCap : Int
  queueClosed : Bool
  debugCache : List (Nat × DebugInfo)
  consumers : Nat
deriving DecidableEq, Repr

/-- Model of a channel send messages <- m while the logger is running:
the message is appended to the queue contents. -/
def enqueue (s : LoggerState) (m : String) : LoggerState :=
  { s with messages := s.messages ++ [m] }

/-- Model of SetBuffer (src/asynclog.go:94-99). -/
def SetBuffer (b : Int) (s : LoggerState) : LoggerState :=
  if s.isStarted then s else { s with buffer := b }

/-- Model of SetOutput (src/asynclog.go:110-115). -/
def SetOutput (w : Nat) (s : LoggerState) : LoggerState :=
  if s.isStarted then s else { s with output := w }

/-- Model of SetWorkers (src/asynclog.go:126-131). -/
def SetWorkers (w : Int) (s : LoggerState) : LoggerState :=
  if s.isStarted then s else { s with workers := w }

/-- Model of SetHere (src/asynclog.go:341-346). -/
def SetHere (msg : String) (s : LoggerState) : LoggerState :=
  if s.isStarted then s else { s with here := msg }

/-- Model of Start (src/asynclog.go:172-182).  make(chan string, buffer)
panics when the capacity is negative, modelled as none.  The loop
for i := 0; i < workers; i++ launches max(workers, 0) consumers, modelled
by Int.toNat. -/
def Start (s : LoggerState) : Option LoggerState :=
  if s.isStarted then some s
  else if s.buffer < 0 then none
  else some { s with
    messages := [], queueCap := s.buffer, queueClosed := false,
    debugCache := [], isStarted := true, consumers := s.workers.toNat }

/-- Model of Stop (src/asynclog.go:187-193).  Closing an already closed
channel panics, modelled as none; the isStarted guard prevents it. -/
def Stop (s : LoggerState) : Option LoggerState :=
  if s.isStarted = false then some s
  else if s.queueClosed then none
  else some { s with isStarted := false, queueClosed := true }

/-- Model of Print (src/asynclog.go:216-221). -/
def Print (msg : String) (s : LoggerState) : LoggerState :=
  if s.isStarted = false then s else enqueue s msg

/-- Model of PrintArgs (src/asynclog.go:234-261).  With one argument the
conversion is sent directly; otherwise the strings.Builder loop writes
toString of every argument in order (the sargs array and Grow call only
preallocate capacity and have no observable effect). -/
def PrintArgs (args : List GoVal) (s : LoggerState) : LoggerState :=
  if s.isStarted = false then s
  else match args with
    | [a] => enqueue s (toString a)
    | _ => enqueue s ((args.map toString).foldl (fun r t => r ++ t) "")

/-- Model of debugInfo (src/asynclog.go:136-155).  The argument is the
call stack seen by debugInfo, head = the frame of its direct caller.
runtime.Caller(2) therefore inspects the entry at index 1 (skip 0 is
debugInfo itself, skip 1 the head, skip 2 the next entry).  On a cache
miss the file component is kept and the result stored under the pc. -/
def debugInfo (callers : List Frame) (cache : List (Nat × DebugInfo)) :
    Option DebugInfo × List (Nat × DebugInfo) :=
  match callers.get? 1 with
  | none => (none, cache)
  | some fr =>
    match cacheLoad cache fr.pc with
    | some info => (some info, cache)
    | none =>
      let info : DebugInfo := ⟨fr.pc, baseName fr.file, fr.line, ""⟩
      (some info, (fr.pc, info) :: cache)

/-- The call site inside the body of Debug where debugInfo() is invoked
(src/asynclog.go:275); its pc is an arbitrary fixed address of the
package code. -/
def debugCallFrame : Frame := ⟨900275, "asynclog-go/asynclog.go", 275⟩

/-- The call site inside the body of DebugHere where Debug(here) is
invoked (src/asynclog.go:365). -/
def debugHereCallFrame : Frame := ⟨900365, "asynclog-go/asynclog.go", 365⟩

/-- Model of Debug (src/asynclog.go:271-283).  callers is the call stack
above Debug, head = the frame of the call site that invoked Debug. -/
def Debug (msg : String) (callers : List Frame) (s : LoggerState) : LoggerState :=
  if s.isStarted = false then s
  else
    let r := debugInfo (debugCallFrame :: callers) s.debugCache
    let s1 := { s with debugCache := r.2 }
    match r.1 with
    | some info => enqueue s1 (info.string ++ " " ++ msg)
    | none => enqueue s1 ("ISSUE DETERMINING RUNTIME CALLER: " ++ msg)

/-- Model of Here (src/asynclog.go:353-358). -/
def Here (s : LoggerState) : LoggerState :=
  if s.isStarted = false then s else enqueue s s.here

/-- Model of DebugHere (src/asynclog.go:361-366): it calls Debug(here),
pushing its own frame onto the stack Debug sees. -/
def DebugHere (callers : List Frame) (s : LoggerState) : LoggerState :=
  if s.isStarted = false then s
  else Debug s.here (debugHereCallFrame :: callers) s

/-- Events a consumer observes in the select loop of consumeMessages
(src/asynclog.go:292-336): a received message, a flush-timer expiry, and
the channel reporting closed and drained. -/
inductive Event where
  | msg : String → Event
  | timer : Event
  | closed : Event
deriving DecidableEq, Repr

/-- The batchSize constant of consumeMessages. -/
def batchSize : Nat := 256

/-- One iteration of the consumeMessages select loop as a function of the
private batch buffer and the observed event.  Returns the new buffer, the
writes emitted to the sink, and whether the worker exited.  Buffer length
is byte length, as in Go. -/
def consumeStep (buf : String) (e : Event) : String × List String × Bool :=
  match e with
  | .msg m =>
    let buf1 := buf ++ m ++ "\n"
    if batchSize ≤ buf1.utf8ByteSize then ("", [buf1], false)
    else (buf1, [], false)
  | .timer =>
    if buf = "" then (buf, [], false) else ("", [buf], false)
  | .closed =>
    if buf = "" then ("", [], true) else ("", [buf], true)

/-- Runs the consumeMessages loop over a list of events, stopping at the
first exit.  Returns the final buffer and the concatenated sink writes. -/
def consumeRun (buf : String) : List Event → String × List String
  | [] => (buf, [])
  | e :: es =>
    let r := consumeStep buf e
    if r.2.2 then (r.1, r.2.1)
    else
      let r2 := consumeRun r.1 es
      (r2.1, r.2.1 ++ r2.2)

/-- The messages carried by the events before the first closed event. -/
def messagesOf : List Event → List String
  | [] => []
  | .msg m :: es => m :: messagesOf es
  | .timer :: es => messagesOf es
  | .closed :: _ => []

/-- Total output of a pool of consumers, one event stream per consumer,
each starting from an empty private buffer. -/
def poolWrites (streams : List (List Event)) : List String :=
  (streams.map (fun es => (consumeRun "" es).2)).foldl (fun a w => a ++ w) []

/-- The DebugInfo entry computed for a frame on a cache miss. -/
def mkInfo (fr : Frame) : DebugInfo := ⟨fr.pc, baseName fr.file, fr.line, ""⟩

/-- A running logger state with the default configuration, used as a
concrete instantiation point. -/
def sRun : LoggerState :=
  { buffer := 100, workers := 15, isStarted := true, output := 0,
    here := "Here", messages := [], queueCap := 100, queueClosed := false,
    debugCache := [], consumers := 15 }

/-- A stopped logger state with the default configuration. -/
def sIdle : LoggerState :=
  { buffer := 100, workers := 15, isStarted := false, output := 0,
    here := "Here", messages := [], queueCap := 100, queueClosed := true,
    debugCache := [], consumers := 0 }

theorem strJoin_foldl (l : List String) (a : String) :
    l.foldl (fun r t => r ++ t) a = a ++ strJoin l := by
  induction l generalizing a with
  | nil => simp [strJoin, String.append_empty]
  | cons x xs ih =>
    simp only [List.foldl_cons, strJoin, ih, String.append_assoc]

theorem strJoin_append (l1 l2 : List String) :
    strJoin (l1 ++ l2) = strJoin l1 ++ strJoin l2 := by
  induction l1 with
  | nil => simp [strJoin, String.empty_append]
  | cons x xs ih => simp [strJoin, ih, String.append_assoc]

theorem append_newline_ne_empty (a : String) : a ++ "\n" ≠ "" := by
  intro h
  have h1 := congrArg String.length h
  rw [String.length_append] at h1
  simp at h1
  exact absurd h1.2 (by decide)

/-- Fidelity checks of the float64 formatter against the documented
strconv.FormatFloat(v, 'f', -1, 64) outputs on classic values: the double
nearest 0.1 prints 0.1, the double nearest one third needs 16 digits, the
double nearest 1e23 crosses a decade upward, the successor of 1.0 needs
17 digits, and 2.5 is exact. -/
theorem formatFloat_shortest_examples :
    formatFloat ⟨3602879701896397, -55⟩ = "0.1"
    ∧ formatFloat ⟨6004799503160661, -54⟩ = "0.3333333333333333"
    ∧ formatFloat ⟨5960464477539062, 24⟩ = "100000000000000000000000"
    ∧ formatFloat ⟨4503599627370497, -52⟩ = "1.0000000000000002"
    ∧ formatFloat ⟨5, -1⟩ = "2.5" := by
  decide

/-- C1: for every argument list of the supported kinds, PrintArgs enqueues
exactly the separator-free concatenation of the canonical text conversion
of each argument, and changes nothing else in the logger state. -/
theorem printArgs_enqueues_concat (s : LoggerState) (h : s.isStarted = true)
    (args : List GoVal) :
    PrintArgs args s
      = { s with messages := s.messages ++ [strJoin (args.map toString)] } := by
  rcases args with _ | ⟨a, _ | ⟨b, t⟩⟩ <;>
    simp [PrintArgs, h, enqueue, strJoin, strJoin_foldl,
      String.empty_append, String.append_empty, String.append_assoc]

/-- C1 witness: PrintArgs applied to the list a, 1, 2.5, true on a running
default logger enqueues exactly the string a12.5true, and applied to the
list x, 0.1 (the float64 nearest 0.1, whose exact expansion has 55
digits) enqueues exactly x0.1, the shortest round-trip form. -/
theorem printArgs_enqueues_concat_witness :
    (PrintArgs [GoVal.str "a", GoVal.int 1, GoVal.float64 ⟨5, -1⟩, GoVal.bool true]
      sRun).messages = ["a12.5true"]
    ∧ (PrintArgs [GoVal.str "x", GoVal.float64 ⟨3602879701896397, -55⟩]
      sRun).messages = ["x0.1"] := by
  constructor
  · have h := printArgs_enqueues_concat sRun rfl
      [GoVal.str "a", GoVal.int 1, GoVal.float64 ⟨5, -1⟩, GoVal.bool true]
    rw [h]
    decide
  · have h := printArgs_enqueues_concat sRun rfl
      [GoVal.str "x", GoVal.float64 ⟨3602879701896397, -55⟩]
    rw [h]
    decide

/-- C2: the claim fails on the code.  DebugHere calls Debug, and debugInfo
uses runtime.Caller(2), which from that nesting resolves the frame of the
Debug(here) call inside DebugHere itself (asynclog.go line 365), not the
frame of the user call site.  Invoked from project/main.go line 10, the
enqueued message carries the internal prefix, while a direct Debug call
with the same body from the same user site carries the user prefix. -/
theorem debugHere_reports_internal_frame :
    (DebugHere [⟨77, "project/main.go", 10⟩] sRun).messages = ["asynclog.go:365 Here"]
    ∧ (Debug "Here" [⟨77, "project/main.go", 10⟩] sRun).messages = ["main.go:10 Here"]
    ∧ "asynclog.go:365 Here" ≠ "main.go:10 Here" := by
  refine ⟨by decide, by decide, by decide⟩

/-- C5: every logging operation invoked while the logger is stopped
returns the state unchanged: the message is silently discarded. -/
theorem stopped_calls_discarded (s : LoggerState) (h : s.isStarted = false)
    (m : String) (args : List GoVal) (st : List Frame) :
    Print m s = s ∧ PrintArgs args s = s ∧ Debug m st s = s
    ∧ Here s = s ∧ DebugHere st s = s := by
  refine ⟨?_, ?_, ?_, ?_, ?_⟩ <;>
    simp [Print, PrintArgs, Debug, Here, DebugHere, h]

/-- C5 witness: the operations at concrete inputs on the stopped default
state leave it unchanged. -/
theorem stopped_calls_discarded_witness :
    Print "x" sIdle = sIdle ∧ PrintArgs [GoVal.int 3] sIdle = sIdle
    ∧ Debug "x" [] sIdle = sIdle ∧ Here sIdle = sIdle ∧ DebugHere [] sIdle = sIdle :=
  stopped_calls_discarded sIdle rfl "x" [GoVal.int 3] []

/-- C6: each configuration setter is a no-op while started, and while
stopped updates exactly its named field, leaving every other field
unchanged. -/
theorem setters_gated_by_lifecycle (s : LoggerState) (b w : Int) (o : Nat)
    (m : String) :
    (s.isStarted = true →
      SetBuffer b s = s ∧ SetOutput o s = s ∧ SetWorkers w s = s ∧ SetHere m s = s)
    ∧ (s.isStarted = false →
      SetBuffer b s = { s with buffer := b }
      ∧ SetOutput o s = { s with output := o }
      ∧ SetWorkers w s = { s with workers := w }
      ∧ SetHere m s = { s with here := m }) := by
  constructor <;> intro h <;>
    simp [SetBuffer, SetOutput, SetWorkers, SetHere, h]

/-- C6 witness: on the running default state the setters change nothing;
on the stopped default state SetBuffer sets exactly the buffer field. -/
theorem setters_gated_by_lifecycle_witness :
    (SetBuffer 7 sRun = sRun ∧ SetOutput 1 sRun = sRun
      ∧ SetWorkers 3 sRun = sRun ∧ SetHere "x" sRun = sRun)
    ∧ SetBuffer 7 sIdle = { sIdle with buffer := 7 } :=
  ⟨(setters_gated_by_lifecycle sRun 7 3 1 "x").1 rfl,
   ((setters_gated_by_lifecycle sIdle 7 3 1 "x").2 rfl).1⟩

/-- C10: SetBuffer accepts a negative size while stopped, and the next
Start call panics on the channel allocation instead of returning. -/
theorem negative_buffer_start_panics (s : LoggerState) (h1 : s.isStarted = false)
    (b : Int) (h2 : b < 0) :
    (SetBuffer b s).buffer = b ∧ Start (SetBuffer b s) = none := by
  constructor <;> simp [SetBuffer, Start, h1, h2]

/-- C10 witness: setting buffer -1 on the stopped default state makes
Start panic. -/
theorem negative_buffer_start_panics_witness :
    (SetBuffer (-1) sIdle).buffer = -1 ∧ Start (SetBuffer (-1) sIdle) = none :=
  negative_buffer_start_panics sIdle rfl (-1) (by decide)

/-- C3: on a started logger Debug enqueues exactly one message, prefixed
with the caller base filename and line when the runtime resolves a caller
frame, and with the fixed diagnostic marker when it does not; the cache
hypothesis records the runtime guarantee that a cached entry for a pc
carries the data of that same call site. -/
theorem debug_resolved_or_marker (s : LoggerState) (h : s.isStarted = true)
    (m : String) (fr : Frame) (rest : List Frame)
    (hc : ∀ i, cacheLoad s.debugCache fr.pc = some i →
      i.file = baseName fr.file ∧ i.line = fr.line ∧ i.str = "") :
    (Debug m (fr :: rest) s).messages
      = s.messages ++ [baseName fr.file ++ ":" ++ Int.repr fr.line ++ " " ++ m]
    ∧ (Debug m [] s).messages
      = s.messages ++ ["ISSUE DETERMINING RUNTIME CALLER: " ++ m] := by
  constructor
  · cases hcl : cacheLoad s.debugCache fr.pc with
    | none => simp [Debug, debugInfo, h, hcl, enqueue, DebugInfo.string]
    | some i =>
      obtain ⟨h1, h2, h3⟩ := hc i hcl
      simp [Debug, debugInfo, h, hcl, enqueue, DebugInfo.string, h1, h2, h3]
  · simp [Debug, debugInfo, h, enqueue]

/-- C3 witness: a Debug call from project/main.go line 10 on the running
default state enqueues the prefixed message, and one with no resolvable
caller enqueues the marked message. -/
theorem debug_resolved_or_marker_witness :
    (Debug "boom" [⟨77, "project/main.go", 10⟩] sRun).messages = ["main.go:10 boom"]
    ∧ (Debug "boom" [] sRun).messages = ["ISSUE DETERMINING RUNTIME CALLER: boom"] := by
  have h := debug_resolved_or_marker sRun rfl "boom" ⟨77, "project/main.go", 10⟩ []
    (by intro i hi; simp [sRun, cacheLoad] at hi)
  exact ⟨h.1.trans (by decide), h.2.trans (by decide)⟩

/-- C8: the first resolution for a call site computes the entry and stores
it under the site pc; a second resolution from the same site returns the
stored entry and leaves the cache unchanged; the label text of the entry
is the file colon line string both times. -/
theorem caller_cache_idempotent (top fr : Frame) (rest : List Frame)
    (c : List (Nat × DebugInfo)) (h : cacheLoad c fr.pc = none) :
    debugInfo (top :: fr :: rest) c = (some (mkInfo fr), (fr.pc, mkInfo fr) :: c)
    ∧ debugInfo (top :: fr :: rest) ((fr.pc, mkInfo fr) :: c)
        = (some (mkInfo fr), (fr.pc, mkInfo fr) :: c)
    ∧ (mkInfo fr).string = baseName fr.file ++ ":" ++ Int.repr fr.line := by
  refine ⟨?_, ?_, ?_⟩
  · simp [debugInfo, h, mkInfo]
  · simp [debugInfo, cacheLoad, mkInfo]
  · simp [mkInfo, DebugInfo.string]

/-- C8 witness: resolving the site at project/main.go line 10 from the
empty cache stores its entry, and the entry label is main.go:10. -/
theorem caller_cache_idempotent_witness :
    debugInfo [debugCallFrame, ⟨77, "project/main.go", 10⟩] []
      = (some (mkInfo ⟨77, "project/main.go", 10⟩),
         [(77, mkInfo ⟨77, "project/main.go", 10⟩)])
    ∧ (mkInfo ⟨77, "project/main.go", 10⟩).string = "main.go:10" := by
  have h := caller_cache_idempotent debugCallFrame ⟨77, "project/main.go", 10⟩ [] [] rfl
  exact ⟨h.1, h.2.2.trans (by decide)⟩

/-- C7: Start on a started state and Stop on a stopped state are no-ops;
Start from a stopped state with a valid configuration allocates a fresh
queue of the configured capacity, resets the cache, starts, and launches
exactly the configured number of consumers; Stop from a started state
stops and closes the queue; both operations are idempotent and a repeated
Stop does not close the queue a second time. -/
theorem lifecycle_idempotent (s : LoggerState) :
    (s.isStarted = true → Start s = some s)
    ∧ (s.isStarted = false → 0 ≤ s.buffer → 0 ≤ s.workers →
        Start s = some { s with
          messages := [], queueCap := s.buffer,
          queueClosed := false, debugCache := [], isStarted := true,
          consumers := s.workers.toNat }
        ∧ (s.workers.toNat : Int) = s.workers)
    ∧ (∀ s1, Start s = some s1 → Start s1 = some s1)
    ∧ (s.isStarted = false → Stop s = some s)
    ∧ (s.isStarted = true → s.queueClosed = false →
        Stop s = some { s with isStarted := false, queueClosed := true })
    ∧ (∀ s1, Stop s = some s1 → Stop s1 = some s1) := by
  refine ⟨fun h => by simp [Start, h],
    fun h hb hw => ⟨by simp [Start, h, not_lt.mpr hb], Int.toNat_of_nonneg hw⟩,
    ?_, fun h => by simp [Stop, h], fun h hq => by simp [Stop, h, hq], ?_⟩
  · intro s1 h1
    simp only [Start] at h1
    split at h1
    · next hs =>
      cases h1
      simp [Start, hs]
    · split at h1
      · exact Option.noConfusion h1
      · cases h1
        simp [Start]
  · intro s1 h1
    simp only [Stop] at h1
    split at h1
    · next hs =>
      cases h1
      simp [Stop, hs]
    · split at h1
      · exact Option.noConfusion h1
      · cases h1
        simp [Stop]

/-- C7 witness: on the running default state Start is a no-op and Stop
stops and closes; on the stopped default state Start launches exactly the
configured 15 consumers. -/
theorem lifecycle_idempotent_witness :
    Start sRun = some sRun
    ∧ (Start sIdle = some { sIdle with
        messages := [], queueCap := sIdle.buffer,
        queueClosed := false, debugCache := [], isStarted := true,
        consumers := sIdle.workers.toNat }
       ∧ (sIdle.workers.toNat : Int) = sIdle.workers)
    ∧ Stop sRun = some { sRun with isStarted := false, queueClosed := true }
    ∧ Stop sIdle = some sIdle :=
  ⟨(lifecycle_idempotent sRun).1 rfl,
   (lifecycle_idempotent sIdle).2.1 rfl (by decide) (by decide),
   (lifecycle_idempotent sRun).2.2.2.2.1 rfl rfl,
   (lifecycle_idempotent sIdle).2.2.2.1 rfl⟩

/-- C9: with a nonpositive configured worker count and a valid buffer,
Start still transitions to Started, so Print enqueues, but the launched
consumer pool is empty and an empty pool writes nothing to the sink. -/
theorem start_with_nonpositive_workers (s : LoggerState) (h1 : s.isStarted = false)
    (h2 : s.workers ≤ 0) (h3 : 0 ≤ s.buffer) (m : String) :
    ∃ s1, Start s = some s1 ∧ s1.isStarted = true ∧ s1.consumers = 0
      ∧ Print m s1 = { s1 with messages := s1.messages ++ [m] }
      ∧ ∀ streams : List (List Event), streams.length = s1.consumers →
          poolWrites streams = [] := by
  refine ⟨{ s with
      messages := [], queueCap := s.buffer, queueClosed := false,
      debugCache := [], isStarted := true, consumers := s.workers.toNat },
    ?_, rfl, Int.toNat_of_nonpos h2, ?_, ?_⟩
  · simp [Start, h1, not_lt.mpr h3]
  · simp [Print, enqueue]
  · intro streams hlen
    have hz : streams = [] := by
      refine List.length_eq_zero.mp ?_
      rw [hlen]
      exact Int.toNat_of_nonpos h2
    subst hz
    rfl

/-- C9 witness: starting the stopped default state configured with -3
workers yields a started state with an empty consumer pool. -/
theorem start_with_nonpositive_workers_witness :
    ∃ s1, Start { sIdle with workers := -3 } = some s1 ∧ s1.isStarted = true
      ∧ s1.consumers = 0
      ∧ Print "m" s1 = { s1 with messages := s1.messages ++ ["m"] }
      ∧ ∀ streams : List (List Event), streams.length = s1.consumers →
          poolWrites streams = [] :=
  start_with_nonpositive_workers { sIdle with workers := -3 } rfl (by decide)
    (by decide) "m"

theorem consumeRun_conservation (es : List Event) : ∀ buf : String,
    strJoin (consumeRun buf es).2 ++ (consumeRun buf es).1
      = buf ++ strJoin ((messagesOf es).map (fun m => m ++ "\n")) := by
  induction es with
  | nil =>
    intro buf
    simp [consumeRun, messagesOf, strJoin, String.empty_append, String.append_empty]
  | cons e es ih =>
    intro buf
    cases e with
    | msg m =>
      by_cases hb : batchSize ≤ (buf ++ m ++ "\n").utf8ByteSize
      · have hstep : consumeStep buf (.msg m) = ("", [buf ++ m ++ "\n"], false) := by
          simp [consumeStep, hb]
        simp [consumeRun, hstep, messagesOf, strJoin, strJoin_append, ih,
          String.append_assoc, String.empty_append, String.append_empty]
      · have hstep : consumeStep buf (.msg m) = (buf ++ m ++ "\n", [], false) := by
          simp [consumeStep, hb]
        simp [consumeRun, hstep, messagesOf, strJoin, ih,
          String.append_assoc, String.empty_append, String.append_empty]
    | timer =>
      by_cases hbuf : buf = ""
      · subst hbuf
        have hstep : consumeStep "" Event.timer = ("", [], false) := by
          simp [consumeStep]
        simp [consumeRun, hstep, messagesOf, ih, String.empty_append]
      · have hstep : consumeStep buf Event.timer = ("", [buf], false) := by
          simp [consumeStep, hbuf]
        simp [consumeRun, hstep, messagesOf, strJoin, ih,
          String.append_assoc, String.empty_append, String.append_empty]
    | closed =>
      by_cases hbuf : buf = ""
      · subst hbuf
        have hstep : consumeStep "" Event.closed = ("", [], true) := by
          simp [consumeStep]
        simp [consumeRun, hstep, messagesOf, strJoin]
      · have hstep : consumeStep buf Event.closed = ("", [buf], true) := by
          simp [consumeStep, hbuf]
        simp [consumeRun, hstep, messagesOf, strJoin, String.append_empty]

theorem consumeRun_closed_buf (es : List Event) : ∀ buf : String,
    Event.closed ∈ es → (consumeRun buf es).1 = "" := by
  induction es with
  | nil =>
    intro buf h
    exact absurd h (List.not_mem_nil _)
  | cons e es ih =>
    intro buf h
    cases e with
    | msg m =>
      have h2 : Event.closed ∈ es := by
        rcases List.mem_cons.mp h with h1 | h1
        · exact Event.noConfusion h1
        · exact h1
      by_cases hb : batchSize ≤ (buf ++ m ++ "\n").utf8ByteSize
      · simp [consumeRun, consumeStep, hb, ih _ h2]
      · simp [consumeRun, consumeStep, hb, ih _ h2]
    | timer =>
      have h2 : Event.closed ∈ es := by
        rcases List.mem_cons.mp h with h1 | h1
        · exact Event.noConfusion h1
        · exact h1
      by_cases hbuf : buf = ""
      · simp [consumeRun, consumeStep, hbuf, ih _ h2]
      · simp [consumeRun, consumeStep, hbuf, ih _ h2]
    | closed =>
      by_cases hbuf : buf = ""
      · simp [consumeRun, consumeStep, hbuf]
      · simp [consumeRun, consumeStep, hbuf]

theorem consumeRun_writes_nl (es : List Event) : ∀ buf : String,
    (buf = "" ∨ ∃ y, buf = y ++ "\n") →
    ∀ w ∈ (consumeRun buf es).2, w ≠ "" ∧ ∃ y, w = y ++ "\n" := by
  induction es with
  | nil =>
    intro buf hb w hw
    simp [consumeRun] at hw
  | cons e es ih =>
    intro buf hb w hw
    cases e with
    | msg m =>
      by_cases hs : batchSize ≤ (buf ++ m ++ "\n").utf8ByteSize
      · simp [consumeRun, consumeStep, hs] at hw
        rcases hw with hw | hw
        · subst hw
          exact ⟨append_newline_ne_empty (buf ++ m), ⟨buf ++ m, rfl⟩⟩
        · exact ih "" (Or.inl rfl) w hw
      · simp [consumeRun, consumeStep, hs] at hw
        exact ih (buf ++ m ++ "\n") (Or.inr ⟨buf ++ m, rfl⟩) w hw
    | timer =>
      by_cases hbuf : buf = ""
      · simp [consumeRun, consumeStep, hbuf] at hw
        exact ih "" (Or.inl rfl) w hw
      · simp [consumeRun, consumeStep, hbuf] at hw
        rcases hw with hw | hw
        · subst hw
          rcases hb with hb | ⟨y, hy⟩
          · exact absurd hb hbuf
          · exact ⟨hbuf, ⟨y, hy⟩⟩
        · exact ih "" (Or.inl rfl) w hw
    | closed =>
      by_cases hbuf : buf = ""
      · simp [consumeRun, consumeStep, hbuf] at hw
      · simp [consumeRun, consumeStep, hbuf] at hw
        subst hw
        rcases hb with hb | ⟨y, hy⟩
        · exact absurd hb hbuf
        · exact ⟨hbuf, ⟨y, hy⟩⟩

/-- C4: the per-worker consume step appends the message with a trailing
newline and flushes exactly when the buffer byte length reaches the
256-byte threshold, flushes on timer expiry iff the buffer is non-empty,
and on end-of-stream flushes a non-empty buffer and exits; over any run
from an empty buffer the sink receives exactly the received messages each
newline-terminated, nothing remains buffered after end-of-stream, and
every write to the sink is non-empty and newline-terminated. -/
theorem consume_loop_spec :
    (∀ buf m, consumeStep buf (.msg m)
        = if batchSize ≤ (buf ++ m ++ "\n").utf8ByteSize
          then ("", [buf ++ m ++ "\n"], false)
          else (buf ++ m ++ "\n", [], false))
    ∧ (∀ buf, consumeStep buf .timer
        = if buf = "" then (buf, [], false) else ("", [buf], false))
    ∧ (∀ buf, consumeStep buf .closed
        = if buf = "" then ("", [], true) else ("", [buf], true))
    ∧ (∀ es, strJoin (consumeRun "" es).2 ++ (consumeRun "" es).1
        = strJoin ((messagesOf es).map (fun m => m ++ "\n")))
    ∧ (∀ es, Event.closed ∈ es → (consumeRun "" es).1 = "")
    ∧ (∀ es w, w ∈ (consumeRun "" es).2 → w ≠ "" ∧ ∃ y, w = y ++ "\n") := by
  refine ⟨fun buf m => rfl, fun buf => rfl, fun buf => rfl, fun es => ?_,
    fun es h => consumeRun_closed_buf es "" h,
    fun es w hw => consumeRun_writes_nl es "" (Or.inl rfl) w hw⟩
  have h := consumeRun_conservation es ""
  simpa [String.empty_append] using h

/-- C4 witness: on a concrete run receiving hi, a timer expiry, x and then
end-of-stream, the step behaviour and run level properties evaluate as
claimed. -/
theorem consume_loop_spec_witness :
    consumeStep "ab" (.msg "cd") = ("abcd\n", [], false)
    ∧ strJoin (consumeRun "" [.msg "hi", .timer, .msg "x", .closed]).2
        ++ (consumeRun "" [.msg "hi", .timer, .msg "x", .closed]).1 = "hi\nx\n"
    ∧ (consumeRun "" [.msg "hi", .timer, .msg "x", .closed]).1 = ""
    ∧ ("x\n" ≠ "" ∧ ∃ y, "x\n" = y ++ "\n") := by
  refine ⟨(consume_loop_spec.1 "ab" "cd").trans (by decide), ?_,
    consume_loop_spec.2.2.2.2.1 [.msg "hi", .timer, .msg "x", .closed] (by decide),
    consume_loop_spec.2.2.2.2.2 [.msg "x", .closed] "x\n" (by decide)⟩
  exact (consume_loop_spec.2.2.2.1 [.msg "hi", .timer, .msg "x", .closed]).trans
    (by decide)

end AsyncLog
